import Mathlib
set_option maxRecDepth 2000

/-!
# Fluxo de Caixa — Ledger Aggregation & Forecasting Engine

Shallow embedding of the analytical core of `app.py`: the KPI calculator
(`AnalyticsEngine.calcular_kpis`), the trend calculator
(`AnalyticsEngine.calcular_trends`), the period comparator
(`calc_variation` in `page_comparativo`), and the linear forecaster
(the projection block of `page_previsoes`).

Modelling conventions:
* pandas/SQL numeric values are exact rationals (`Rat`); the places where the
  code genuinely produces IEEE-754 non-finite values (`pct_change` over a
  zero denominator) are modelled with an explicit extended-value type
  `PFloat` with `+inf`, `-inf` and `NaN`.
* a date cell holds the outcome of `pd.to_datetime(..., errors="coerce")`:
  `Option Date`, `none` for `NaT`.
* DataFrames are lists of rows; derived columns (`data_dt`, `mes`,
  `tipo_norm`) are optional fields of a row, written by explicit
  column-assignment functions mirroring the pandas statements.
* a Python exception escaping a function is modelled by an `Option` result
  (`none` = the call raises).
-/

namespace Fluxo

/-- A calendar date (year, month, day), the value of one `datetime`/`Timestamp`
at day granularity. -/
structure Date where
  y : Int
  m : Int
  d : Int
deriving DecidableEq, Repr

/-- Day count since 1970-01-01 on the proleptic Gregorian calendar (the civil
calendar used by `datetime`); this is the timeline on which `timedelta(days=n)`
arithmetic and `Timestamp` comparison operate. -/
def daysFromCivil (dt : Date) : Int :=
  let y := if dt.m ≤ 2 then dt.y - 1 else dt.y
  let era := Int.fdiv y 400
  let yoe := y - era * 400
  let mp := dt.m + (if 2 < dt.m then -3 else 9)
  let doy := Int.fdiv (153 * mp + 2) 5 + dt.d - 1
  let doe := yoe * 365 + Int.fdiv yoe 4 - Int.fdiv yoe 100 + doy
  era * 146097 + doe - 719468

/-- The month key produced by `data_dt.dt.to_period("M")`: a linear month
index (periods compare and increment by one calendar month). -/
def monthIdx (dt : Date) : Int := 12 * dt.y + (dt.m - 1)

/-- Python `str.lower()` on one character, restricted to the alphabet that can
occur in the `tipo` strings of this application (ASCII letters plus the
accented `Í` of "Saída"). -/
def pyLowerChar (c : Char) : Char :=
  if c = 'Í' then 'í'
  else if 'A' ≤ c ∧ c ≤ 'Z' then Char.ofNat (c.toNat + 32)
  else c

/-- Python `str.lower()` over the code points of a string:
models `.str.lower()`. -/
def pyLower (s : String) : String := ⟨s.data.map pyLowerChar⟩

/-- Python `str.strip()`: drop whitespace from both ends;
models `.str.strip()`. -/
def pyStrip (s : String) : String :=
  ⟨((s.data.dropWhile Char.isWhitespace).reverse.dropWhile Char.isWhitespace).reverse⟩

/-- The kind normalisation `astype(str).str.strip().str.lower()` used by
`calcular_kpis` (line 490) and `calcular_trends` (line 514). -/
def normTipo (s : String) : String := pyLower (pyStrip s)

/-- One DataFrame row as consumed by the analytics engine.  `data` holds the
outcome of parsing the stored date string (`none` = unparseable); `valor` is
the numeric amount (already coerced by `read_lancamentos`); `data_dt`, `mes`
and `tipo_norm` are the derived columns that the engine materialises, absent
(`none`) on rows fresh from the store. -/
structure Row where
  data : Option Date
  tipo : String
  valor : Rat
  data_dt : Option Date
  mes : Option Int
  tipo_norm : Option String
deriving DecidableEq, Repr

/-- A raw row as it comes out of the `lancamentos` table before
`read_lancamentos` post-processing: `valor` is the outcome of
`pd.to_numeric(..., errors="coerce")`, `none` modelling `NaN` (an
unparseable amount such as `"abc"`). -/
structure RawRow where
  data : Option Date
  tipo : String
  valor : Option Rat
deriving DecidableEq, Repr

/-- `df["valor"] = pd.to_numeric(df["valor"], errors="coerce").fillna(0.0)`
(`read_lancamentos`, line 440): an unparseable amount becomes `0.0`; the row
itself is kept. -/
def read_lancamentos_row (r : RawRow) : Row :=
  ⟨r.data, r.tipo, r.valor.getD 0, none, none, none⟩

/-- The KPI snapshot returned by `calcular_kpis`. -/
structure Kpis where
  entradas : Rat
  saidas : Rat
  saldo : Rat
  total_lancamentos : Nat
deriving DecidableEq, Repr

/-- `df_clean["tipo_norm"] = df_clean["tipo"].astype(str).str.strip().str.lower()`
(line 490 / 514): materialise the normalised-kind column. -/
def addTipoNormCol (df : List Row) : List Row :=
  df.map (fun r => { r with tipo_norm := some (normTipo r.tipo) })

/-- The aggregation part of `calcular_kpis` (lines 491-500), reading the
materialised `tipo_norm` column. -/
def kpisOfClean (dfc : List Row) : Kpis :=
  let entradas := ((dfc.filter (fun r => decide (r.tipo_norm = some "entrada"))).map Row.valor).sum
  let saidas := ((dfc.filter (fun r => decide (r.tipo_norm = some "saída"))).map Row.valor).sum
  ⟨entradas, saidas, entradas - saidas, dfc.length⟩

/-- `AnalyticsEngine.calcular_kpis` (lines 485-500): all-zero snapshot on an
empty frame, otherwise sum `valor` per normalised kind and count every row. -/
def calcular_kpis (df : List Row) : Kpis :=
  if df.isEmpty then ⟨0, 0, 0, 0⟩
  else kpisOfClean (addTipoNormCol df)

/-- Total `valor` of the rows whose normalised kind is `k`; the closed form of
the per-kind sums inside `calcular_kpis`. -/
def sumKind (df : List Row) (k : String) : Rat :=
  ((df.filter (fun r => decide (normTipo r.tipo = k))).map Row.valor).sum

theorem kpisOfClean_addTipoNormCol (df : List Row) :
    kpisOfClean (addTipoNormCol df) =
      ⟨sumKind df "entrada", sumKind df "saída",
       sumKind df "entrada" - sumKind df "saída", df.length⟩ := by
  have hfil : ∀ k : String,
      (addTipoNormCol df).filter (fun r => decide (r.tipo_norm = some k)) =
        (df.filter (fun r => decide (normTipo r.tipo = k))).map
          (fun r => { r with tipo_norm := some (normTipo r.tipo) }) := by
    intro k
    unfold addTipoNormCol
    rw [List.filter_map]
    congr 1
    apply List.filter_congr
    intro r _
    simp
  unfold kpisOfClean sumKind
  rw [hfil "entrada", hfil "saída"]
  unfold addTipoNormCol
  rw [List.map_map, List.map_map, List.length_map]
  rfl

theorem calcular_kpis_eq (df : List Row) :
    calcular_kpis df =
      ⟨sumKind df "entrada", sumKind df "saída",
       sumKind df "entrada" - sumKind df "saída", df.length⟩ := by
  unfold calcular_kpis
  by_cases h : df.isEmpty
  · rw [if_pos h]
    rw [List.isEmpty_iff] at h
    subst h
    simp [sumKind]
  · rw [if_neg h]
    exact kpisOfClean_addTipoNormCol df

theorem sumKind_append_single (df : List Row) (c : Row) (k : String) :
    sumKind (df ++ [c]) k = sumKind df k + (if normTipo c.tipo = k then c.valor else 0) := by
  unfold sumKind
  rw [List.filter_append, List.map_append, List.sum_append]
  by_cases h : normTipo c.tipo = k <;> simp [h]

/-- C8: for every entry collection, the KPI snapshot returned by
`calcular_kpis` satisfies `saldo = entradas - saidas` exactly, where
`entradas`/`saidas` sum the amounts of the rows whose trimmed and lowercased
kind is `"entrada"` / `"saída"`. -/
theorem c8_saldo_balance (df : List Row) :
    (calcular_kpis df).saldo = (calcular_kpis df).entradas - (calcular_kpis df).saidas := by
  rw [calcular_kpis_eq]

/-- C10: appending one row whose normalised kind is neither `"entrada"` nor
`"saída"` leaves the KPI sums and the balance unchanged and increases the
entry count by exactly one. -/
theorem c10_unknown_kind (df : List Row) (e : Row)
    (h1 : normTipo e.tipo ≠ "entrada") (h2 : normTipo e.tipo ≠ "saída") :
    calcular_kpis (df ++ [e]) =
      ⟨(calcular_kpis df).entradas, (calcular_kpis df).saidas,
       (calcular_kpis df).saldo, (calcular_kpis df).total_lancamentos + 1⟩ := by
  simp only [calcular_kpis_eq]
  simp [sumKind_append_single, h1, h2]

def rowE1 : Row := ⟨some ⟨2024, 1, 5⟩, "Entrada", 7, none, none, none⟩

def rowX : Row := ⟨some ⟨2024, 1, 6⟩, "x", 5, none, none, none⟩

theorem c10_unknown_kind_witness :
    calcular_kpis ([rowE1] ++ [rowX]) =
      ⟨(calcular_kpis [rowE1]).entradas, (calcular_kpis [rowE1]).saidas,
       (calcular_kpis [rowE1]).saldo, (calcular_kpis [rowE1]).total_lancamentos + 1⟩ :=
  c10_unknown_kind [rowE1] rowX (by decide) (by decide)

/-- C7: the KPI entry count is the number of rows passed in — including rows
whose amounts did not parse: a row whose raw amount is unparseable is coerced
to `0` by `read_lancamentos`, contributes nothing to the sums, and still
increments `total_lancamentos` by one. -/
theorem c7_count_includes_unparseable (rows : List RawRow) (r : RawRow)
    (h : r.valor = none) :
    (calcular_kpis (rows.map read_lancamentos_row)).total_lancamentos = rows.length ∧
    calcular_kpis ((rows ++ [r]).map read_lancamentos_row) =
      ⟨(calcular_kpis (rows.map read_lancamentos_row)).entradas,
       (calcular_kpis (rows.map read_lancamentos_row)).saidas,
       (calcular_kpis (rows.map read_lancamentos_row)).saldo,
       rows.length + 1⟩ := by
  constructor
  · rw [calcular_kpis_eq]
    simp
  · rw [List.map_append]
    simp only [List.map_cons, List.map_nil, calcular_kpis_eq]
    have hv : (read_lancamentos_row r).valor = 0 := by
      simp [read_lancamentos_row, h]
    simp [sumKind_append_single, hv]

def rawE : RawRow := ⟨some ⟨2024, 1, 5⟩, "Entrada", some 1000⟩

def rawBad : RawRow := ⟨some ⟨2024, 1, 6⟩, "Entrada", none⟩

theorem c7_count_includes_unparseable_witness :
    rawBad.valor = none ∧
      ((calcular_kpis ([rawE].map read_lancamentos_row)).total_lancamentos = [rawE].length ∧
       calcular_kpis (([rawE] ++ [rawBad]).map read_lancamentos_row) =
         ⟨(calcular_kpis ([rawE].map read_lancamentos_row)).entradas,
          (calcular_kpis ([rawE].map read_lancamentos_row)).saidas,
          (calcular_kpis ([rawE].map read_lancamentos_row)).saldo,
          [rawE].length + 1⟩) :=
  ⟨rfl, c7_count_includes_unparseable [rawE] rawBad rfl⟩

/-- `calc_variation` (page_comparativo, lines 970-973): percentage variation
with the explicit zero-base rule. -/
def calc_variation (val1 val2 : Rat) : Rat :=
  if val1 = 0 then (if val2 = 0 then 0 else 100)
  else ((val2 - val1) / val1) * 100

/-- The four variations displayed by page_comparativo. -/
structure Variations where
  var_entradas : Rat
  var_saidas : Rat
  var_saldo : Rat
  var_lanc : Rat
deriving DecidableEq, Repr

/-- page_comparativo applies `calc_variation` to each of the four KPI metrics
(lines 975, 982, 989, 996). -/
def compare_kpis (k1 k2 : Kpis) : Variations :=
  ⟨calc_variation k1.entradas k2.entradas,
   calc_variation k1.saidas k2.saidas,
   calc_variation k1.saldo k2.saldo,
   calc_variation (k1.total_lancamentos : Rat) (k2.total_lancamentos : Rat)⟩

/-- C2: the comparator computes `(B - A) / A * 100` for a non-zero base, `0`
for `compare(0, 0)`, `100` for a zero base and non-zero target, `0` for
`compare(A, A)` with `A` non-zero, and page_comparativo applies this same
rule to inflow, outflow, balance and entry count. -/
theorem c2_comparator (a b : Rat) (k1 k2 : Kpis) :
    (a ≠ 0 → calc_variation a b = ((b - a) / a) * 100) ∧
    (calc_variation 0 0 = 0) ∧
    (b ≠ 0 → calc_variation 0 b = 100) ∧
    (a ≠ 0 → calc_variation a a = 0) ∧
    compare_kpis k1 k2 =
      ⟨calc_variation k1.entradas k2.entradas,
       calc_variation k1.saidas k2.saidas,
       calc_variation k1.saldo k2.saldo,
       calc_variation (k1.total_lancamentos : Rat) (k2.total_lancamentos : Rat)⟩ := by
  refine ⟨?_, by simp [calc_variation], ?_, ?_, rfl⟩
  · intro h
    rw [calc_variation, if_neg h]
  · intro h
    rw [calc_variation, if_pos rfl, if_neg h]
  · intro h
    rw [calc_variation, if_neg h]
    simp

theorem c2_comparator_witness :
    ((2 : Rat) ≠ 0 ∧ (3 : Rat) ≠ 0) ∧
      calc_variation 2 3 = ((3 - 2) / 2) * 100 ∧
      calc_variation 0 3 = 100 ∧ calc_variation 2 2 = 0 := by
  have h := c2_comparator 2 3 ⟨0, 0, 0, 0⟩ ⟨0, 0, 0, 0⟩
  exact ⟨⟨by norm_num, by norm_num⟩, h.1 (by norm_num), h.2.2.1 (by norm_num),
    h.2.2.2.1 (by norm_num)⟩

/-- `df_trend["data_dt"] = pd.to_datetime(df_trend["data"], errors="coerce")`
(line 507): materialise the parsed-date column. -/
def addDataDtCol (df : List Row) : List Row :=
  df.map (fun r => { r with data_dt := r.data })

/-- `df_trend = df_trend.dropna(subset=["data_dt"])` (line 508). -/
def dropnaDataDt (df : List Row) : List Row :=
  df.filter (fun r => r.data_dt.isSome)

/-- `df_trend = df_trend[df_trend["data_dt"] >= data_corte]` with
`data_corte = datetime.now() - timedelta(days=periodo * 30)` (lines 509-510);
`now` is the current instant at day granularity. -/
def filterWindow (now : Date) (periodo : Int) (df : List Row) : List Row :=
  df.filter (fun r =>
    decide (daysFromCivil now - periodo * 30 ≤ (r.data_dt.map daysFromCivil).getD 0))

/-- `df_trend["mes"] = df_trend["data_dt"].dt.to_period("M")` (line 513). -/
def addMesCol (df : List Row) : List Row :=
  df.map (fun r => { r with mes := r.data_dt.map monthIdx })

/-- The prepared frame on which `calcular_trends` aggregates: parsed dates,
rows restricted to the trailing window, month and normalised-kind columns
materialised (lines 506-514). -/
def trendFrame (now : Date) (df : List Row) (periodo : Int) : List Row :=
  addTipoNormCol (addMesCol (filterWindow now periodo (dropnaDataDt (addDataDtCol df))))

/-- The sorted duplicate-free list of month keys of a frame: the index of
`groupby(["mes", "tipo_norm"])["valor"].sum().unstack(fill_value=0)`
(line 515). -/
def mesKeys (df : List Row) : List Int :=
  ((df.filterMap Row.mes).dedup).insertionSort (· ≤ ·)

/-- One cell of the unstacked monthly table: total `valor` of the rows with
month `m` and normalised kind `k` (0 when the combination is absent, matching
`fill_value=0`). -/
def bucketTotal (df : List Row) (m : Int) (k : String) : Rat :=
  ((df.filter (fun r => decide (r.mes = some m ∧ r.tipo_norm = some k))).map Row.valor).sum

/-- The monthly series of kind `k` in chronological order: column `k` of the
unstacked monthly table. -/
def monthSeries (df : List Row) (k : String) : List Rat :=
  (mesKeys df).map (fun m => bucketTotal df m k)

/-- Whether kind `k` occurs in a frame: `k in monthly.columns`. -/
def kindPresent (df : List Row) (k : String) : Bool :=
  df.any (fun r => decide (r.tipo_norm = some k))

/-- An IEEE-754 double as produced by the pandas pipeline: a finite value
(kept exact as a rational), one of the two infinities, or NaN. -/
inductive PFloat where
  | fin : Rat → PFloat
  | pinf : PFloat
  | ninf : PFloat
  | nan : PFloat
deriving DecidableEq, Repr

def PFloat.isNan : PFloat → Bool
  | .nan => true
  | _ => false

def PFloat.isPinf : PFloat → Bool
  | .pinf => true
  | _ => false

def PFloat.isNinf : PFloat → Bool
  | .ninf => true
  | _ => false

def PFloat.finVal : PFloat → Rat
  | .fin q => q
  | _ => 0

def PFloat.isFinite : PFloat → Bool
  | .fin _ => true
  | _ => false

/-- One `pct_change` step `v[i] / v[i-1] - 1` in IEEE arithmetic: finite when
the previous value is non-zero, otherwise an infinity carrying the sign of
the numerator, or NaN for `0 / 0`. -/
def pctStep (prev cur : Rat) : PFloat :=
  if prev ≠ 0 then .fin ((cur - prev) / prev)
  else if 0 < cur then .pinf
  else if cur < 0 then .ninf
  else .nan

/-- `Series.pct_change()`: a leading NaN followed by consecutive change
ratios. -/
def pctChangeList (l : List Rat) : List PFloat :=
  .nan :: (l.zip l.tail).map (fun p => pctStep p.1 p.2)

/-- `Series.mean()` with the pandas default `skipna=True` over IEEE values:
NaNs are dropped, a remaining infinity dominates the sum (two opposite
infinities give NaN), and the mean of an empty remainder is NaN. -/
def seriesMean (l : List PFloat) : PFloat :=
  let fs := l.filter (fun v => !v.isNan)
  if fs.isEmpty then .nan
  else if fs.any PFloat.isPinf then (if fs.any PFloat.isNinf then .nan else .pinf)
  else if fs.any PFloat.isNinf then .ninf
  else .fin ((fs.map PFloat.finVal).sum / fs.length)

/-- Multiplication of an IEEE value by the positive constant 100
(the `* 100` applied to each mean). -/
def PFloat.times100 : PFloat → PFloat
  | .fin q => .fin (100 * q)
  | .pinf => .pinf
  | .ninf => .ninf
  | .nan => .nan

structure Trends where
  trend_entradas : PFloat
  trend_saidas : PFloat
  trend_saldo : PFloat
deriving DecidableEq, Repr

/-- `pct_change().mean() * 100` applied to one monthly series. -/
def trendOfSeries (s : List Rat) : PFloat :=
  (seriesMean (pctChangeList s)).times100

/-- The trend reported for kind `k` (lines 516-523): the scaled mean of the
percentage changes when the kind occurs in the window and at least two
monthly buckets exist, otherwise 0. -/
def trendKind (t4 : List Row) (k : String) : PFloat :=
  if kindPresent t4 k ∧ 2 ≤ (mesKeys t4).length then trendOfSeries (monthSeries t4 k)
  else .fin 0

/-- `saldo_mensal = monthly.get("entrada", 0) - monthly.get("saída", 0)`
(line 524) in the non-raising case (at least one recognised kind present): a
column absent from the table contributes the broadcast scalar 0, which is
also the value of every cell of an absent kind. -/
def saldoSeries (t4 : List Row) : List Rat :=
  (mesKeys t4).map (fun m => bucketTotal t4 m "entrada" - bucketTotal t4 m "saída")

/-- The balance trend (lines 525-528). -/
def trendSaldo (t4 : List Row) : PFloat :=
  if 2 ≤ (mesKeys t4).length then trendOfSeries (saldoSeries t4)
  else .fin 0

/-- `AnalyticsEngine.calcular_trends` (lines 502-533).  The result is `none`
when the call raises: `len(saldo_mensal)` throws `TypeError` when neither
recognised kind occurs in the window, because then `monthly.get` yields the
scalar default 0 for both kinds and `saldo_mensal` is the integer 0 (the
per-kind trends computed on lines 516-523 before that point are discarded
by the exception, so the model may compute them after the branch). -/
def calcular_trends (now : Date) (df : List Row) (periodo : Int) : Option Trends :=
  if df.isEmpty then some ⟨.fin 0, .fin 0, .fin 0⟩
  else if (filterWindow now periodo (dropnaDataDt (addDataDtCol df))).isEmpty then
    some ⟨.fin 0, .fin 0, .fin 0⟩
  else if ¬kindPresent (trendFrame now df periodo) "entrada" ∧
      ¬kindPresent (trendFrame now df periodo) "saída" then none
  else
    some ⟨trendKind (trendFrame now df periodo) "entrada",
          trendKind (trendFrame now df periodo) "saída",
          trendSaldo (trendFrame now df periodo)⟩

def rowAugZero : Row := ⟨some ⟨2025, 8, 15⟩, "Entrada", 0, none, none, none⟩

def rowSep100 : Row := ⟨some ⟨2025, 9, 15⟩, "Entrada", 100, none, none, none⟩

def nowOct : Date := ⟨2025, 10, 1⟩

unseal Rat.add Rat.sub Rat.mul Rat.inv in
/-- C1 (code bug): on a window whose inflow bucket series is `[0, 100]`,
`pct_change` produces `+inf` at the zero-to-positive step, the mean does not
filter it, and `calcular_trends` returns `+inf` for the inflow and balance
trends — a non-finite aggregate value, contradicting the specified filtering
of non-finite ratios before averaging. -/
theorem c1_trend_nonfinite :
    calcular_trends nowOct [rowAugZero, rowSep100] 6 =
      some ⟨.pinf, .fin 0, .pinf⟩ ∧
    (calcular_trends nowOct [rowAugZero, rowSep100] 6).map
      (fun t => t.trend_entradas.isFinite) = some false := by
  exact ⟨by decide, by decide⟩

/-- The month-over-month percentage changes `(v[i] - v[i-1]) / v[i-1]` of a
series, stated over the rationals as the specification writes them. -/
def ratPct (l : List Rat) : List Rat :=
  (l.zip l.tail).map (fun p => (p.2 - p.1) / p.1)

/-- The arithmetic mean of a rational series, as the specification writes
it. -/
def ratMean (l : List Rat) : Rat := l.sum / l.length

theorem filter_notNan_map_fin (xs : List Rat) :
    (xs.map PFloat.fin).filter (fun v => !v.isNan) = xs.map PFloat.fin := by
  rw [List.filter_eq_self]
  intro v hv
  obtain ⟨x, _, rfl⟩ := List.mem_map.mp hv
  rfl

theorem any_isPinf_map_fin (xs : List Rat) :
    (xs.map PFloat.fin).any PFloat.isPinf = false := by
  rw [List.any_eq_false]
  intro v hv
  obtain ⟨x, _, rfl⟩ := List.mem_map.mp hv
  simp [PFloat.isPinf]

theorem any_isNinf_map_fin (xs : List Rat) :
    (xs.map PFloat.fin).any PFloat.isNinf = false := by
  rw [List.any_eq_false]
  intro v hv
  obtain ⟨x, _, rfl⟩ := List.mem_map.mp hv
  simp [PFloat.isNinf]

/-- When every prior month value is non-zero and at least two buckets exist,
the IEEE mean of the `pct_change` series is finite and equals the rational
mean of the percentage changes — the refinement between the implementation
pipeline and the mean the specification describes. -/
theorem trendOfSeries_finite (l : List Rat) (h2 : 2 ≤ l.length)
    (hp : ∀ p ∈ l.zip l.tail, p.1 ≠ 0) :
    trendOfSeries l = .fin (100 * ratMean (ratPct l)) := by
  have hsteps : (l.zip l.tail).map (fun p => pctStep p.1 p.2) = (ratPct l).map PFloat.fin := by
    unfold ratPct
    rw [List.map_map]
    apply List.map_congr_left
    intro p hpmem
    simp only [Function.comp]
    rw [pctStep, if_pos (hp p hpmem)]
  have hlen : (ratPct l).length = l.length - 1 := by
    unfold ratPct
    rw [List.length_map, List.length_zip, List.length_tail]
    omega
  have hne : (ratPct l).map PFloat.fin ≠ [] := by
    intro hcon
    have := congrArg List.length hcon
    rw [List.length_map, hlen] at this
    simp at this
    omega
  unfold trendOfSeries pctChangeList seriesMean
  rw [hsteps]
  simp only [List.filter_cons]
  have hnanhead : (!PFloat.isNan PFloat.nan) = false := rfl
  rw [hnanhead]
  simp only [Bool.false_eq_true, if_false]
  have hie : (List.map PFloat.fin (ratPct l)).isEmpty = false := by
    cases h : (List.map PFloat.fin (ratPct l)).isEmpty
    · rfl
    · exact absurd (List.isEmpty_iff.mp h) hne
  rw [filter_notNan_map_fin, hie, any_isPinf_map_fin, any_isNinf_map_fin]
  simp only [Bool.false_eq_true, if_false]
  have hmapval : ((ratPct l).map PFloat.fin).map PFloat.finVal = ratPct l := by
    rw [List.map_map]
    exact List.map_id'' (fun x => rfl) _
  rw [hmapval, List.length_map, PFloat.times100]
  unfold ratMean
  rfl

theorem saldoSeries_eq_zipWith (t4 : List Row) :
    saldoSeries t4 =
      List.zipWith (fun a b => a - b) (monthSeries t4 "entrada") (monthSeries t4 "saída") := by
  unfold saldoSeries monthSeries
  induction (mesKeys t4) with
  | nil => rfl
  | cons m ms ih =>
    rw [List.map_cons, List.map_cons, List.map_cons, List.zipWith_cons_cons, ih]

theorem calcular_trends_eq_some (now : Date) (df : List Row) (periodo : Int)
    (hk : (filterWindow now periodo (dropnaDataDt (addDataDtCol df))).isEmpty = false →
      kindPresent (trendFrame now df periodo) "entrada" = true ∨
      kindPresent (trendFrame now df periodo) "saída" = true) :
    calcular_trends now df periodo =
      some ⟨trendKind (trendFrame now df periodo) "entrada",
            trendKind (trendFrame now df periodo) "saída",
            trendSaldo (trendFrame now df periodo)⟩ := by
  unfold calcular_trends
  by_cases hdf : df.isEmpty = true
  · rw [if_pos hdf]
    have ht : trendFrame now df periodo = [] := by
      rw [List.isEmpty_iff] at hdf
      subst hdf
      rfl
    rw [ht]
    rfl
  · rw [if_neg hdf]
    by_cases hw : (filterWindow now periodo (dropnaDataDt (addDataDtCol df))).isEmpty = true
    · rw [if_pos hw]
      have ht : trendFrame now df periodo = [] := by
        unfold trendFrame
        rw [List.isEmpty_iff] at hw
        rw [hw]
        rfl
      rw [ht]
      rfl
    · have hwf : (filterWindow now periodo (dropnaDataDt (addDataDtCol df))).isEmpty = false := by
        cases hx : (filterWindow now periodo (dropnaDataDt (addDataDtCol df))).isEmpty
        · rfl
        · exact absurd hx hw
      have hnot : ¬(¬kindPresent (trendFrame now df periodo) "entrada" = true ∧
          ¬kindPresent (trendFrame now df periodo) "saída" = true) := by
        rintro ⟨h1, h2⟩
        rcases hk hwf with h | h
        · exact h1 h
        · exact h2 h
      rw [if_neg hw, if_neg hnot]

/-- C6 (amended): provided that a non-empty trailing window contains at least
one row of a recognised kind (otherwise the code raises `TypeError`, see the
counterexample), `calcular_trends` restricts the rows to those dated within
`periodo * 30` days of the current instant, buckets them by calendar month
with trim-plus-lowercase kind normalisation, reports 0 for a kind absent from
the window or when fewer than two monthly buckets exist, otherwise the mean
of the month-over-month percentage changes scaled by 100 (stated here for
series whose prior values are non-zero, where that mean is the rational one),
and computes the balance trend from the synthetic per-month series
`inflow - outflow`, not as the difference of the other two trends. -/
theorem c6_trend_pipeline (now : Date) (df : List Row) (periodo : Int)
    (hk : (filterWindow now periodo (dropnaDataDt (addDataDtCol df))).isEmpty = false →
      kindPresent (trendFrame now df periodo) "entrada" = true ∨
      kindPresent (trendFrame now df periodo) "saída" = true) :
    ∃ t, calcular_trends now df periodo = some t ∧
      (kindPresent (trendFrame now df periodo) "entrada" = false ∨
          (mesKeys (trendFrame now df periodo)).length < 2 →
        t.trend_entradas = .fin 0) ∧
      (kindPresent (trendFrame now df periodo) "entrada" = true →
        2 ≤ (mesKeys (trendFrame now df periodo)).length →
        (∀ p ∈ (monthSeries (trendFrame now df periodo) "entrada").zip
            (monthSeries (trendFrame now df periodo) "entrada").tail, p.1 ≠ 0) →
        t.trend_entradas =
          .fin (100 * ratMean (ratPct (monthSeries (trendFrame now df periodo) "entrada")))) ∧
      (kindPresent (trendFrame now df periodo) "saída" = false ∨
          (mesKeys (trendFrame now df periodo)).length < 2 →
        t.trend_saidas = .fin 0) ∧
      (kindPresent (trendFrame now df periodo) "saída" = true →
        2 ≤ (mesKeys (trendFrame now df periodo)).length →
        (∀ p ∈ (monthSeries (trendFrame now df periodo) "saída").zip
            (monthSeries (trendFrame now df periodo) "saída").tail, p.1 ≠ 0) →
        t.trend_saidas =
          .fin (100 * ratMean (ratPct (monthSeries (trendFrame now df periodo) "saída")))) ∧
      ((mesKeys (trendFrame now df periodo)).length < 2 → t.trend_saldo = .fin 0) ∧
      (2 ≤ (mesKeys (trendFrame now df periodo)).length →
        (∀ p ∈ (saldoSeries (trendFrame now df periodo)).zip
            (saldoSeries (trendFrame now df periodo)).tail, p.1 ≠ 0) →
        t.trend_saldo =
          .fin (100 * ratMean (ratPct (saldoSeries (trendFrame now df periodo))))) ∧
      saldoSeries (trendFrame now df periodo) =
        List.zipWith (fun a b => a - b) (monthSeries (trendFrame now df periodo) "entrada")
          (monthSeries (trendFrame now df periodo) "saída") := by
  refine ⟨⟨trendKind (trendFrame now df periodo) "entrada",
           trendKind (trendFrame now df periodo) "saída",
           trendSaldo (trendFrame now df periodo)⟩,
    calcular_trends_eq_some now df periodo hk, ?_, ?_, ?_, ?_, ?_, ?_,
    saldoSeries_eq_zipWith _⟩
  · intro h
    show trendKind _ "entrada" = _
    unfold trendKind
    rw [if_neg ?_]
    rintro ⟨h1, h2⟩
    rcases h with h | h
    · rw [h1] at h
      exact Bool.noConfusion h
    · omega
  · intro hE hn hp
    show trendKind _ "entrada" = _
    unfold trendKind
    rw [if_pos ⟨hE, hn⟩]
    refine trendOfSeries_finite _ ?_ hp
    unfold monthSeries
    rw [List.length_map]
    exact hn
  · intro h
    show trendKind _ "saída" = _
    unfold trendKind
    rw [if_neg ?_]
    rintro ⟨h1, h2⟩
    rcases h with h | h
    · rw [h1] at h
      exact Bool.noConfusion h
    · omega
  · intro hS hn hp
    show trendKind _ "saída" = _
    unfold trendKind
    rw [if_pos ⟨hS, hn⟩]
    refine trendOfSeries_finite _ ?_ hp
    unfold monthSeries
    rw [List.length_map]
    exact hn
  · intro h
    show trendSaldo _ = _
    unfold trendSaldo
    rw [if_neg ?_]
    omega
  · intro hn hp
    show trendSaldo _ = _
    unfold trendSaldo
    rw [if_pos hn]
    refine trendOfSeries_finite _ ?_ hp
    unfold saldoSeries
    rw [List.length_map]
    exact hn

def rowKindX : Row := ⟨some ⟨2025, 9, 15⟩, "x", 5, none, none, none⟩

/-- C6 counterexample: on a collection whose only in-window row has the
unrecognised kind `"x"`, `calcular_trends` raises `TypeError` at
`len(saldo_mensal)` (modelled as `none`) instead of reporting any trend
values, refuting the claim as stated for every entry collection. -/
theorem c6_trends_raise_cex : calcular_trends nowOct [rowKindX] 6 = none := by
  decide

def rowAug100 : Row := ⟨some ⟨2025, 8, 15⟩, "Entrada", 100, none, none, none⟩

def rowSep150 : Row := ⟨some ⟨2025, 9, 15⟩, "Entrada", 150, none, none, none⟩

unseal Rat.add Rat.sub Rat.mul Rat.inv in
theorem c6_trend_pipeline_witness :
    ∃ t, calcular_trends nowOct [rowAug100, rowSep150] 6 = some t ∧
      t.trend_entradas = PFloat.fin 50 := by
  obtain ⟨t, ht, _, hE, _, _, _, _, _⟩ :=
    c6_trend_pipeline nowOct [rowAug100, rowSep150] 6 (by decide)
  refine ⟨t, ht, ?_⟩
  rw [hE (by decide) (by decide) (by decide)]
  decide

/-- The aggregation frame of the monthly bucketing (lines 506-514 without the
trailing-window cut): parsed dates, rows with unparseable dates dropped, and
the month and normalised-kind columns materialised.  This is the Aggregator
of the specification applied to an already-restricted collection. -/
def aggFrame (df : List Row) : List Row :=
  addTipoNormCol (addMesCol (dropnaDataDt (addDataDtCol df)))

theorem sum_single_list (S : List Int) (hS : S.Nodup) (b : Int) (hb : b ∈ S) (c : Rat) :
    (S.map (fun m => if b = m then c else 0)).sum = c := by
  induction S with
  | nil => cases hb
  | cons s S ih =>
    rw [List.map_cons, List.sum_cons]
    rcases List.mem_cons.mp hb with h | h
    · subst h
      rw [if_pos rfl]
      have hz : (S.map (fun m => if b = m then c else 0)).sum = 0 := by
        apply List.sum_eq_zero
        intro x hx
        obtain ⟨m, hm, rfl⟩ := List.mem_map.mp hx
        refine if_neg ?_
        rintro rfl
        exact (List.nodup_cons.mp hS).1 hm
      rw [hz, add_zero]
    · have hne : b ≠ s := by
        rintro rfl
        exact (List.nodup_cons.mp hS).1 h
      rw [if_neg hne, ih (List.nodup_cons.mp hS).2 h, zero_add]

theorem sum_fibers (S : List Int) (hS : S.Nodup) (key : Row → Int) :
    ∀ l : List Row, (∀ a ∈ l, key a ∈ S) →
      (S.map (fun m => ((l.filter (fun a => decide (key a = m))).map Row.valor).sum)).sum =
        (l.map Row.valor).sum := by
  intro l
  induction l with
  | nil => simp
  | cons a l ih =>
    intro h
    have ha : key a ∈ S := h a (List.mem_cons_self a l)
    have hl : ∀ b ∈ l, key b ∈ S := fun b hb => h b (List.mem_cons_of_mem a hb)
    have hsplit : ∀ m ∈ S,
        (((a :: l).filter (fun x => decide (key x = m))).map Row.valor).sum =
          (if key a = m then a.valor else 0) +
            ((l.filter (fun x => decide (key x = m))).map Row.valor).sum := by
      intro m _
      rw [List.filter_cons]
      by_cases hm : key a = m
      · simp [hm]
      · simp [hm]
    rw [List.map_congr_left hsplit, List.sum_map_add, sum_single_list S hS (key a) ha a.valor,
      ih hl, List.map_cons, List.sum_cons]

theorem aggFrame_eq_map (df : List Row) (h : ∀ r ∈ df, r.data.isSome = true) :
    aggFrame df = df.map (fun r =>
      ⟨r.data, r.tipo, r.valor, r.data, r.data.map monthIdx, some (normTipo r.tipo)⟩) := by
  unfold aggFrame addTipoNormCol addMesCol dropnaDataDt addDataDtCol
  have hkeep : (df.map (fun r => { r with data_dt := r.data })).filter
      (fun r => r.data_dt.isSome) = df.map (fun r => { r with data_dt := r.data }) := by
    rw [List.filter_eq_self]
    intro a ha
    obtain ⟨r, hr, rfl⟩ := List.mem_map.mp ha
    exact h r hr
  rw [hkeep, List.map_map, List.map_map]
  rfl

theorem bucket_partition_kind (df : List Row) (h : ∀ r ∈ df, r.data.isSome = true)
    (k : String) :
    ((mesKeys (aggFrame df)).map (fun m => bucketTotal (aggFrame df) m k)).sum =
      sumKind df k := by
  have hP := aggFrame_eq_map df h
  have hmesSome : ∀ r ∈ aggFrame df, ∃ v, r.mes = some v := by
    intro r hr
    rw [hP] at hr
    obtain ⟨x, hx, rfl⟩ := List.mem_map.mp hr
    obtain ⟨d, hd⟩ := Option.isSome_iff_exists.mp (h x hx)
    exact ⟨monthIdx d, by rw [hd]; rfl⟩
  have hnodup : (mesKeys (aggFrame df)).Nodup :=
    (List.perm_insertionSort _ _).nodup_iff.mpr (List.nodup_dedup _)
  have hbt : ∀ m, bucketTotal (aggFrame df) m k =
      ((((aggFrame df).filter (fun r => decide (r.tipo_norm = some k))).filter
        (fun r => decide (r.mes.getD 0 = m))).map Row.valor).sum := by
    intro m
    unfold bucketTotal
    rw [List.filter_filter]
    congr 1
    apply congrArg
    apply List.filter_congr
    intro r hr
    obtain ⟨v, hv⟩ := hmesSome r hr
    rw [hv]
    simp [Bool.decide_and, Bool.and_comm]
  have hkey : ∀ r ∈ (aggFrame df).filter (fun r => decide (r.tipo_norm = some k)),
      r.mes.getD 0 ∈ mesKeys (aggFrame df) := by
    intro r hr
    have hrP : r ∈ aggFrame df := List.mem_of_mem_filter hr
    obtain ⟨v, hv⟩ := hmesSome r hrP
    rw [hv]
    show v ∈ mesKeys (aggFrame df)
    unfold mesKeys
    rw [(List.perm_insertionSort _ _).mem_iff, List.mem_dedup]
    exact List.mem_filterMap.mpr ⟨r, hrP, hv⟩
  calc ((mesKeys (aggFrame df)).map (fun m => bucketTotal (aggFrame df) m k)).sum
      = ((mesKeys (aggFrame df)).map (fun m =>
          ((((aggFrame df).filter (fun r => decide (r.tipo_norm = some k))).filter
            (fun r => decide (r.mes.getD 0 = m))).map Row.valor).sum)).sum := by
        exact congrArg List.sum (List.map_congr_left (fun m _ => hbt m))
    _ = (((aggFrame df).filter (fun r => decide (r.tipo_norm = some k))).map Row.valor).sum :=
        sum_fibers _ hnodup _ _ hkey
    _ = sumKind df k := by
        rw [hP, List.filter_map]
        have hpred : (df.filter ((fun r => decide (r.tipo_norm = some k)) ∘ fun r =>
            (⟨r.data, r.tipo, r.valor, r.data, r.data.map monthIdx,
              some (normTipo r.tipo)⟩ : Row))) =
            df.filter (fun r => decide (normTipo r.tipo = k)) := by
          apply List.filter_congr
          intro r _
          simp [Function.comp]
        rw [hpred, List.map_map]
        rfl

/-- C5: for a collection in which every entry has a valid parseable date, the
monthly bucketing is a partition: summing the per-month bucket totals of a
kind over all month keys gives exactly the KPI total that `calcular_kpis`
computes for that kind on the same collection. -/
theorem c5_bucket_partition (df : List Row) (h : ∀ r ∈ df, r.data.isSome = true) :
    ((mesKeys (aggFrame df)).map (fun m => bucketTotal (aggFrame df) m "entrada")).sum =
      (calcular_kpis df).entradas ∧
    ((mesKeys (aggFrame df)).map (fun m => bucketTotal (aggFrame df) m "saída")).sum =
      (calcular_kpis df).saidas := by
  rw [calcular_kpis_eq]
  exact ⟨bucket_partition_kind df h "entrada", bucket_partition_kind df h "saída"⟩

def rowJanIn : Row := ⟨some ⟨2024, 1, 5⟩, "Entrada", 1000, none, none, none⟩

def rowJanOut : Row := ⟨some ⟨2024, 1, 20⟩, "Saída", 400, none, none, none⟩

def rowFevIn : Row := ⟨some ⟨2024, 2, 10⟩, "Entrada", 1100, none, none, none⟩

def rowFevOut : Row := ⟨some ⟨2024, 2, 15⟩, "Saída", 500, none, none, none⟩

unseal Rat.add Rat.sub Rat.mul Rat.inv in
theorem c5_bucket_partition_witness :
    ((mesKeys (aggFrame [rowJanIn, rowJanOut, rowFevIn, rowFevOut])).map
        (fun m => bucketTotal (aggFrame [rowJanIn, rowJanOut, rowFevIn, rowFevOut]) m "entrada")).sum =
      (calcular_kpis [rowJanIn, rowJanOut, rowFevIn, rowFevOut]).entradas ∧
    ((mesKeys (aggFrame [rowJanIn, rowJanOut, rowFevIn, rowFevOut])).map
        (fun m => bucketTotal (aggFrame [rowJanIn, rowJanOut, rowFevIn, rowFevOut]) m "saída")).sum =
      (calcular_kpis [rowJanIn, rowJanOut, rowFevIn, rowFevOut]).saidas :=
  c5_bucket_partition [rowJanIn, rowJanOut, rowFevIn, rowFevOut] (by decide)

/-- One forecast point of page_previsoes (lines 1129-1134). -/
structure FPoint where
  mes : Int
  entradas_proj : Rat
  saidas_proj : Rat
  saldo_proj : Rat
deriving DecidableEq, Repr

/-- `df_hist["tipo_norm"] = df_hist["tipo"].str.lower()` (line 1098): the
forecaster lowercases the kind without stripping, unlike the KPI and trend
calculators. -/
def addTipoLowerCol (df : List Row) : List Row :=
  df.map (fun r => { r with tipo_norm := some (pyLower r.tipo) })

/-- The prepared history frame of page_previsoes (lines 1094-1099): parsed
dates, rows with unparseable dates dropped, month and lowercased-kind
columns materialised. -/
def histFrame (df : List Row) : List Row :=
  addTipoLowerCol (addMesCol (dropnaDataDt (addDataDtCol df)))

/-- `np.arange(len(monthly_hist))` summed: the sum of the zero-based bucket
indices. -/
def idxSum (n : Nat) : Rat := ∑ i in Finset.range n, (i : Rat)

/-- Sum of squared bucket indices. -/
def idxSqSum (n : Nat) : Rat := ∑ i in Finset.range n, (i : Rat) ^ 2

/-- Sum of index-times-value products of a series. -/
def idxProdSum (ys : List Rat) : Rat :=
  ∑ i in Finset.range ys.length, (i : Rat) * ys.getD i 0

/-- Sum of the series values, written over the indexed form. -/
def ySum (ys : List Rat) : Rat := ∑ i in Finset.range ys.length, ys.getD i 0

/-- The least-squares slope of `np.polyfit(x, y, 1)` over `x = 0 .. n-1`,
through the normal equations. -/
def fitSlope (ys : List Rat) : Rat :=
  ((ys.length : Rat) * idxProdSum ys - idxSum ys.length * ySum ys) /
    ((ys.length : Rat) * idxSqSum ys.length - idxSum ys.length ^ 2)

/-- The `_fit` helper of page_previsoes (lines 1107-1112): ordinary least
squares when at least two buckets exist (the values are always finite, so
`np.any(np.isfinite(y_arr))` holds), otherwise slope 0 with the mean of the
available values as intercept (0 for an empty series).  Returns
`(slope, intercept)`. -/
def fitLine (ys : List Rat) : Rat × Rat :=
  if 2 ≤ ys.length then
    (fitSlope ys, (ySum ys - fitSlope ys * idxSum ys.length) / (ys.length : Rat))
  else
    (0, if ys.length = 0 then 0 else ySum ys / (ys.length : Rat))

/-- The per-kind fit of page_previsoes (lines 1113-1120): `fitLine` on the
kind's monthly column when the kind occurs in the table, else slope and
intercept 0. -/
def prevFit (hf : List Row) (k : String) : Rat × Rat :=
  if kindPresent hf k then fitLine (monthSeries hf k) else (0, 0)

/-- Sum of squared residuals of the line `y = s * x + c` over the indexed
series: the quantity `np.polyfit` minimises for degree 1. -/
def sse (ys : List Rat) (s c : Rat) : Rat :=
  ∑ i in Finset.range ys.length, (ys.getD i 0 - (s * (i : Rat) + c)) ^ 2

/-- The projection block of `page_previsoes` (lines 1091-1134).  `none`
models the two early returns that display the insufficient-data warning
(empty collection, or no parseable-date rows so that `monthly_hist` is
empty); otherwise one forecast point per horizon step `i = 1 ..
meses_projecao`: each fitted line evaluated at index
`len(monthly_hist) + i - 1`, clamped at zero, the projected balance the
difference of the clamped projections, and the month `i` past the maximal
historical bucket month. -/
def page_previsoes_calc (df : List Row) (meses_projecao : Nat) : Option (List FPoint) :=
  if df.isEmpty then none
  else if (dropnaDataDt (addDataDtCol df)).isEmpty then none
  else
    some ((List.range meses_projecao).map (fun (j : Nat) =>
      ⟨(mesKeys (histFrame df)).max?.getD 0 + ((j : Int) + 1),
       max 0 ((prevFit (histFrame df) "entrada").2 + (prevFit (histFrame df) "entrada").1 *
         (((mesKeys (histFrame df)).length : Rat) + ((j : Rat) + 1) - 1)),
       max 0 ((prevFit (histFrame df) "saída").2 + (prevFit (histFrame df) "saída").1 *
         (((mesKeys (histFrame df)).length : Rat) + ((j : Rat) + 1) - 1)),
       max 0 ((prevFit (histFrame df) "entrada").2 + (prevFit (histFrame df) "entrada").1 *
         (((mesKeys (histFrame df)).length : Rat) + ((j : Rat) + 1) - 1)) -
       max 0 ((prevFit (histFrame df) "saída").2 + (prevFit (histFrame df) "saída").1 *
         (((mesKeys (histFrame df)).length : Rat) + ((j : Rat) + 1) - 1))⟩))

/-- C4: when the history window has no row with a parseable date (so the
monthly table is empty), the forecaster signals insufficient data — an early
return with a warning, modelled `none` — and emits no forecast-point list,
empty or zero-filled or otherwise. -/
theorem c4_insufficient_data (df : List Row) (h : dropnaDataDt (addDataDtCol df) = [])
    (m : Nat) : page_previsoes_calc df m = none := by
  unfold page_previsoes_calc
  by_cases hdf : df.isEmpty = true
  · rw [if_pos hdf]
  · rw [if_neg hdf, if_pos (by rw [h]; rfl)]

def rowNoDate : Row := ⟨none, "Entrada", 5, none, none, none⟩

theorem c4_insufficient_data_witness :
    page_previsoes_calc [rowNoDate] 6 = none :=
  c4_insufficient_data [rowNoDate] (by decide) 6

theorem ySum_eq_sum (ys : List Rat) : ySum ys = ys.sum := by
  induction ys with
  | nil => rfl
  | cons a l ih =>
    unfold ySum at ih ⊢
    rw [List.length_cons, Finset.sum_range_succ', List.sum_cons]
    have hshift : ∀ i ∈ Finset.range l.length,
        (a :: l).getD (i + 1) 0 = l.getD i 0 := fun i _ => rfl
    rw [Finset.sum_congr rfl hshift, ih]
    show l.sum + a = a + l.sum
    ring

theorem idxSum_eq (n : Nat) : idxSum n = (n : Rat) * ((n : Rat) - 1) / 2 := by
  induction n with
  | zero => simp [idxSum]
  | succ k ih =>
    unfold idxSum at ih ⊢
    rw [Finset.sum_range_succ, ih]
    push_cast
    ring

theorem idxSqSum_eq (n : Nat) :
    idxSqSum n = (n : Rat) * ((n : Rat) - 1) * (2 * (n : Rat) - 1) / 6 := by
  induction n with
  | zero => simp [idxSqSum]
  | succ k ih =>
    unfold idxSqSum at ih ⊢
    rw [Finset.sum_range_succ, ih]
    push_cast
    ring

theorem det_pos (n : Nat) (h2 : 2 ≤ n) :
    0 < (n : Rat) * idxSqSum n - idxSum n ^ 2 := by
  rw [idxSum_eq, idxSqSum_eq]
  have hn : (2 : Rat) ≤ (n : Rat) := by exact_mod_cast h2
  have key : (n : Rat) * ((n : Rat) * ((n : Rat) - 1) * (2 * (n : Rat) - 1) / 6) -
      ((n : Rat) * ((n : Rat) - 1) / 2) ^ 2 =
      (n : Rat) ^ 2 * ((n : Rat) - 1) * ((n : Rat) + 1) / 12 := by ring
  rw [key]
  have hn0 : (0 : Rat) < (n : Rat) := by linarith
  have hp : (0 : Rat) < (n : Rat) ^ 2 * ((n : Rat) - 1) * ((n : Rat) + 1) :=
    mul_pos (mul_pos (pow_pos hn0 2) (by linarith)) (by linarith)
  exact div_pos hp (by norm_num)

theorem sum_resid (ys : List Rat) (a b : Rat) :
    ∑ i in Finset.range ys.length, (ys.getD i 0 - (a * (i : Rat) + b)) =
      ySum ys - a * idxSum ys.length - (ys.length : Rat) * b := by
  unfold ySum idxSum
  rw [Finset.sum_sub_distrib, Finset.sum_add_distrib, ← Finset.mul_sum,
    Finset.sum_const, nsmul_eq_mul, Finset.card_range]
  ring

theorem sum_xresid (ys : List Rat) (a b : Rat) :
    ∑ i in Finset.range ys.length, (i : Rat) * (ys.getD i 0 - (a * (i : Rat) + b)) =
      idxProdSum ys - a * idxSqSum ys.length - b * idxSum ys.length := by
  unfold idxProdSum idxSqSum idxSum
  have hterm : ∀ i ∈ Finset.range ys.length,
      (i : Rat) * (ys.getD i 0 - (a * (i : Rat) + b)) =
        (i : Rat) * ys.getD i 0 - a * (i : Rat) ^ 2 - b * (i : Rat) := fun i _ => by ring
  rw [Finset.sum_congr rfl hterm, Finset.sum_sub_distrib, Finset.sum_sub_distrib,
    ← Finset.mul_sum, ← Finset.mul_sum]

/-- The pair computed by `fitLine` on a series of at least two buckets
minimises the sum of squared residuals over all lines: `np.polyfit(x, y, 1)`
is ordinary least squares. -/
theorem fitLine_sse_min (ys : List Rat) (h2 : 2 ≤ ys.length) (s c : Rat) :
    sse ys (fitLine ys).1 (fitLine ys).2 ≤ sse ys s c := by
  have hn0 : ((ys.length : Rat)) ≠ 0 := Nat.cast_ne_zero.mpr (by omega)
  have hD := det_pos ys.length h2
  have hfit : fitLine ys =
      (fitSlope ys, (ySum ys - fitSlope ys * idxSum ys.length) / (ys.length : Rat)) := by
    unfold fitLine
    rw [if_pos h2]
  have hshD : fitSlope ys * ((ys.length : Rat) * idxSqSum ys.length - idxSum ys.length ^ 2) =
      (ys.length : Rat) * idxProdSum ys - idxSum ys.length * ySum ys := by
    unfold fitSlope
    exact div_mul_cancel₀ _ (ne_of_gt hD)
  have hres : ySum ys - fitSlope ys * idxSum ys.length -
      (ys.length : Rat) *
        ((ySum ys - fitSlope ys * idxSum ys.length) / (ys.length : Rat)) = 0 := by
    field_simp
  have hxres : idxProdSum ys - fitSlope ys * idxSqSum ys.length -
      ((ySum ys - fitSlope ys * idxSum ys.length) / (ys.length : Rat)) *
        idxSum ys.length = 0 := by
    field_simp
    linear_combination -hshD
  rw [hfit]
  generalize hb : (ySum ys - fitSlope ys * idxSum ys.length) / (ys.length : Rat) = b
    at hres hxres
  generalize ha : fitSlope ys = a at hres hxres
  show sse ys a b ≤ sse ys s c
  unfold sse
  have hterm : ∀ i ∈ Finset.range ys.length,
      (ys.getD i 0 - (s * (i : Rat) + c)) ^ 2 =
        (ys.getD i 0 - (a * (i : Rat) + b)) ^ 2
        + (2 * (a - s)) * ((i : Rat) * (ys.getD i 0 - (a * (i : Rat) + b)))
        + (2 * (b - c)) * (ys.getD i 0 - (a * (i : Rat) + b))
        + ((a - s) * (i : Rat) + (b - c)) ^ 2 := fun i _ => by ring
  rw [Finset.sum_congr rfl hterm, Finset.sum_add_distrib, Finset.sum_add_distrib,
    Finset.sum_add_distrib, ← Finset.mul_sum, ← Finset.mul_sum, sum_xresid ys a b,
    sum_resid ys a b, hres, hxres, mul_zero, mul_zero, add_zero, add_zero]
  exact le_add_of_nonneg_right (Finset.sum_nonneg fun i _ => sq_nonneg _)

/-- C3: for a collection with at least one parseable-date row, the forecaster
returns one point per horizon step; each point evaluates the per-kind fitted
line at index `n + i - 1`, clamps inflow and outflow at zero, sets the
balance to the difference of the clamped projections, and is dated `i` months
after the last historical bucket; the fitted line of a kind with at least
two data points minimises the sum of squared residuals (ordinary least
squares over the zero-based bucket index), a kind with fewer data points
gets slope 0 and the mean of its available values as intercept, and an
absent kind gets slope and intercept 0. -/
theorem c3_forecaster (df : List Row) (hz : dropnaDataDt (addDataDtCol df) ≠ [])
    (m : Nat) :
    ∃ pts, page_previsoes_calc df m = some pts ∧
      pts.length = m ∧
      (∀ j, j < m →
        pts.getD j ⟨0, 0, 0, 0⟩ =
          ⟨(mesKeys (histFrame df)).max?.getD 0 + ((j : Int) + 1),
           max 0 ((prevFit (histFrame df) "entrada").2 + (prevFit (histFrame df) "entrada").1 *
             (((mesKeys (histFrame df)).length : Rat) + ((j : Rat) + 1) - 1)),
           max 0 ((prevFit (histFrame df) "saída").2 + (prevFit (histFrame df) "saída").1 *
             (((mesKeys (histFrame df)).length : Rat) + ((j : Rat) + 1) - 1)),
           max 0 ((prevFit (histFrame df) "entrada").2 + (prevFit (histFrame df) "entrada").1 *
             (((mesKeys (histFrame df)).length : Rat) + ((j : Rat) + 1) - 1)) -
           max 0 ((prevFit (histFrame df) "saída").2 + (prevFit (histFrame df) "saída").1 *
             (((mesKeys (histFrame df)).length : Rat) + ((j : Rat) + 1) - 1))⟩) ∧
      (∀ k s c, kindPresent (histFrame df) k = true →
        2 ≤ (monthSeries (histFrame df) k).length →
        sse (monthSeries (histFrame df) k) (prevFit (histFrame df) k).1
            (prevFit (histFrame df) k).2 ≤ sse (monthSeries (histFrame df) k) s c) ∧
      (∀ k, kindPresent (histFrame df) k = true →
        (monthSeries (histFrame df) k).length < 2 →
        prevFit (histFrame df) k = (0, ratMean (monthSeries (histFrame df) k))) ∧
      (∀ k, kindPresent (histFrame df) k = false → prevFit (histFrame df) k = (0, 0)) := by
  have hdf : ¬df.isEmpty = true := by
    intro he
    rw [List.isEmpty_iff] at he
    subst he
    exact hz rfl
  have hwne : ¬(dropnaDataDt (addDataDtCol df)).isEmpty = true := by
    intro he
    exact hz (List.isEmpty_iff.mp he)
  have hmain : page_previsoes_calc df m = some ((List.range m).map (fun (j : Nat) =>
      (⟨(mesKeys (histFrame df)).max?.getD 0 + ((j : Int) + 1),
        max 0 ((prevFit (histFrame df) "entrada").2 + (prevFit (histFrame df) "entrada").1 *
          (((mesKeys (histFrame df)).length : Rat) + ((j : Rat) + 1) - 1)),
        max 0 ((prevFit (histFrame df) "saída").2 + (prevFit (histFrame df) "saída").1 *
          (((mesKeys (histFrame df)).length : Rat) + ((j : Rat) + 1) - 1)),
        max 0 ((prevFit (histFrame df) "entrada").2 + (prevFit (histFrame df) "entrada").1 *
          (((mesKeys (histFrame df)).length : Rat) + ((j : Rat) + 1) - 1)) -
        max 0 ((prevFit (histFrame df) "saída").2 + (prevFit (histFrame df) "saída").1 *
          (((mesKeys (histFrame df)).length : Rat) + ((j : Rat) + 1) - 1))⟩ : FPoint))) := by
    unfold page_previsoes_calc
    rw [if_neg hdf, if_neg hwne]
  refine ⟨_, hmain, ?_, ?_, ?_, ?_, ?_⟩
  · rw [List.length_map, List.length_range]
  · intro j hj
    rw [List.getD_eq_getElem?_getD, List.getElem?_map, List.getElem?_range hj]
    rfl
  · intro k s c hk h2
    unfold prevFit
    rw [if_pos hk]
    exact fitLine_sse_min _ h2 s c
  · intro k hk hlt
    unfold prevFit
    rw [if_pos hk]
    unfold fitLine
    rw [if_neg (by omega)]
    by_cases h0 : (monthSeries (histFrame df) k).length = 0
    · rw [if_pos h0]
      simp [List.length_eq_zero.mp h0, ratMean]
    · rw [if_neg h0, ySum_eq_sum]
      rfl
  · intro k hk
    unfold prevFit
    rw [if_neg (by rw [hk]; exact Bool.false_ne_true)]

def rowAug1000 : Row := ⟨some ⟨2025, 8, 1⟩, "Entrada", 1000, none, none, none⟩

def rowSep1200 : Row := ⟨some ⟨2025, 9, 1⟩, "Entrada", 1200, none, none, none⟩

unseal Rat.add Rat.sub Rat.mul Rat.inv in
theorem c3_forecaster_witness :
    ∃ pts, page_previsoes_calc [rowAug1000, rowSep1200] 1 = some pts ∧
      pts.getD 0 ⟨0, 0, 0, 0⟩ = ⟨24309, 1400, 0, 1400⟩ ∧ (1200 : Rat) ≤ 1400 := by
  obtain ⟨pts, hp, hlen, hpt, _, _, _⟩ :=
    c3_forecaster [rowAug1000, rowSep1200] (by decide) 1
  refine ⟨pts, hp, ?_, by norm_num⟩
  rw [hpt 0 (by norm_num)]
  decide

/-- The Python object store at DataFrame granularity: a heap of frame
objects; references are indices into the store.  A method call maps the
store to a new store plus its result. -/
abbrev Store := List (List Row)

theorem store_getD_concat (s : Store) (d : List Row) :
    (s ++ [d]).getD s.length [] = d := by
  rw [List.getD_eq_getElem?_getD, List.getElem?_append_right (le_refl _)]
  simp

theorem store_set_concat (s : Store) (d x : List Row) :
    (s ++ [d]).set s.length x = s ++ [x] := by
  rw [List.set_append_right _ _ (le_refl _)]
  simp

theorem store_getD_append_lt (s t : Store) (j : Nat) (hj : j < s.length) :
    (s ++ t).getD j [] = s.getD j [] := by
  rw [List.getD_eq_getElem?_getD, List.getD_eq_getElem?_getD, List.getElem?_append_left hj]

/-- `AnalyticsEngine.calcular_kpis` at the heap level (lines 485-500): the
empty-frame early return touches nothing; otherwise the method allocates a
copy of the input frame (`df_clean = df.copy()`, line 489), writes the
normalised-kind column on that copy only (line 490), and aggregates from the
copy.  `self` holds only the manager reference and is never assigned. -/
def calcular_kpis_call (s : Store) (r : Nat) : Store × Kpis :=
  if (s.getD r []).isEmpty then (s, ⟨0, 0, 0, 0⟩)
  else
    let s1 := s ++ [s.getD r []]
    let s2 := s1.set s.length (addTipoNormCol (s1.getD s.length []))
    (s2, kpisOfClean (s2.getD s.length []))

/-- The tail of `calcular_trends` from the groupby on (lines 515-533),
reading the prepared frame. -/
def trendsOfPrepared (t4 : List Row) : Option Trends :=
  if ¬kindPresent t4 "entrada" ∧ ¬kindPresent t4 "saída" then none
  else some ⟨trendKind t4 "entrada", trendKind t4 "saída", trendSaldo t4⟩

/-- `AnalyticsEngine.calcular_trends` at the heap level (lines 502-533):
empty-frame early return; otherwise allocate a copy (line 506), write the
parsed-date column on the copy (line 507); `dropna` (line 508) and the
boolean window filter (line 510) each allocate fresh frames; the month and
kind columns (lines 513-514) are written on the last fresh frame, and the
aggregation reads only that frame. -/
def calcular_trends_call (now : Date) (s : Store) (r : Nat) (periodo : Int) :
    Store × Option Trends :=
  if (s.getD r []).isEmpty then (s, some ⟨.fin 0, .fin 0, .fin 0⟩)
  else
    let s1 := s ++ [s.getD r []]
    let s2 := s1.set s.length (addDataDtCol (s1.getD s.length []))
    let s3 := s2 ++ [dropnaDataDt (s2.getD s.length [])]
    let s4 := s3 ++ [filterWindow now periodo (s3.getD s2.length [])]
    if (s4.getD s3.length []).isEmpty then (s4, some ⟨.fin 0, .fin 0, .fin 0⟩)
    else
      let s5 := s4.set s3.length (addMesCol (s4.getD s3.length []))
      let s6 := s5.set s3.length (addTipoNormCol (s5.getD s3.length []))
      (s6, trendsOfPrepared (s6.getD s3.length []))

theorem calcular_kpis_call_spec (s : Store) (r : Nat) :
    (calcular_kpis_call s r).2 = calcular_kpis (s.getD r []) ∧
    ∀ j, j < s.length → (calcular_kpis_call s r).1.getD j [] = s.getD j [] := by
  by_cases hemp : (s.getD r []).isEmpty = true
  · unfold calcular_kpis_call calcular_kpis
    rw [if_pos hemp, if_pos hemp]
    exact ⟨rfl, fun j hj => rfl⟩
  · unfold calcular_kpis_call calcular_kpis
    rw [if_neg hemp, if_neg hemp]
    simp only [store_getD_concat, store_set_concat]
    refine ⟨trivial, fun j hj => store_getD_append_lt s _ j hj⟩

theorem calcular_trends_call_spec (now : Date) (s : Store) (r : Nat) (periodo : Int) :
    (calcular_trends_call now s r periodo).2 = calcular_trends now (s.getD r []) periodo ∧
    ∀ j, j < s.length → (calcular_trends_call now s r periodo).1.getD j [] = s.getD j [] := by
  by_cases hemp : (s.getD r []).isEmpty = true
  · unfold calcular_trends_call calcular_trends
    rw [if_pos hemp, if_pos hemp]
    exact ⟨rfl, fun j hj => rfl⟩
  · unfold calcular_trends_call calcular_trends
    rw [if_neg hemp, if_neg hemp]
    simp only [store_getD_concat, store_set_concat]
    by_cases hwin :
        (filterWindow now periodo (dropnaDataDt (addDataDtCol (s.getD r [])))).isEmpty = true
    · rw [if_pos hwin, if_pos hwin]
      refine ⟨rfl, fun j hj => ?_⟩
      rw [store_getD_append_lt _ _ j (by simp [List.length_append]; omega),
        store_getD_append_lt _ _ j (by simp [List.length_append]; omega),
        store_getD_append_lt _ _ j hj]
    · rw [if_neg hwin, if_neg hwin]
      refine ⟨rfl, fun j hj => ?_⟩
      rw [store_getD_append_lt _ _ j (by simp [List.length_append]; omega),
        store_getD_append_lt _ _ j (by simp [List.length_append]; omega),
        store_getD_append_lt _ _ j hj]

/-- C9: neither analytical call mutates the entry collection it was given
nor any other pre-existing frame — the methods write only to frames they
allocate themselves (the `.copy()`, the `dropna` result, the boolean-indexed
frame) — and each result equals the pure function of the input snapshot, so
every call is a re-derivation carrying no state. -/
theorem c9_no_mutation (now : Date) (s : Store) (r : Nat) (periodo : Int)
    (j : Nat) (hj : j < s.length) :
    (calcular_kpis_call s r).1.getD j [] = s.getD j [] ∧
    (calcular_trends_call now s r periodo).1.getD j [] = s.getD j [] ∧
    (calcular_kpis_call s r).2 = calcular_kpis (s.getD r []) ∧
    (calcular_trends_call now s r periodo).2 = calcular_trends now (s.getD r []) periodo :=
  ⟨(calcular_kpis_call_spec s r).2 j hj,
   (calcular_trends_call_spec now s r periodo).2 j hj,
   (calcular_kpis_call_spec s r).1,
   (calcular_trends_call_spec now s r periodo).1⟩

theorem c9_no_mutation_witness :
    (0 < ([[rowE1]] : Store).length) ∧
      ((calcular_kpis_call [[rowE1]] 0).1.getD 0 [] = ([[rowE1]] : Store).getD 0 [] ∧
       (calcular_trends_call nowOct [[rowE1]] 0 6).1.getD 0 [] = ([[rowE1]] : Store).getD 0 [] ∧
       (calcular_kpis_call [[rowE1]] 0).2 = calcular_kpis (([[rowE1]] : Store).getD 0 []) ∧
       (calcular_trends_call nowOct [[rowE1]] 0 6).2 =
         calcular_trends nowOct (([[rowE1]] : Store).getD 0 []) 6) :=
  ⟨by decide, c9_no_mutation nowOct [[rowE1]] 0 6 0 (by decide)⟩

end Fluxo
